import Mathlib

/-
Shallow embedding of the NickServ moderation bot (src/__main__.py and
src/comm.py) and proofs about its specification claims.

Modelling conventions:
  * Python dicts with string keys become association lists preserving
    insertion order; Python sets of fingerprints become Lean lists with
    set-style operations (add only when absent, remove one occurrence).
  * A value whose runtime type can change (the two ban stores, which
    `do_unban` / `do_unbanip` replace by a bare Python list) is a sum type
    `BanStore` with a `dict` and a `list` constructor.
  * `re.match` on a possibly malformed pattern is an oracle
    `Matcher : String -> String -> MatchOutcome`; `MatchOutcome.error`
    models the exception a malformed rule raises.
  * Side effects (chan.sendall, whois/names queries, save_settings) are
    recorded in an explicit trace of `Effect`s returned by each handler.
  * Code that raises an uncaught Python exception is embedded in
    `Except String`.
-/

namespace NickServ

deriving instance DecidableEq for Except

/-- Outcome of evaluating one regex match attempt: either a boolean result
or the exception raised by a malformed pattern. -/
inductive MatchOutcome where
  | ok (b : Bool)
  | error
deriving DecidableEq

/-- Oracle giving the outcome of the Python call re.match of a given
anchored pattern against a given string. -/
abbrev Matcher := String → String → MatchOutcome

/-- Runtime value stored under settings keys banned_usernames / banned_ips.
Normally a dict from pattern to reason; do_unban and do_unbanip replace it
with a bare list of the remaining patterns. -/
inductive BanStore where
  | dict (rules : List (String × String))
  | list (patterns : List String)
deriving DecidableEq

/-- Python iteration over .items(); raises AttributeError on a bare list. -/
def BanStore.items : BanStore → Except String (List (String × String))
  | .dict rules => .ok rules
  | .list _ => .error "AttributeError: list object has no attribute items"

/-- Python iteration over the store itself (keys of a dict, elements of a
list); this is what the comprehension in do_unban / do_unbanip does. -/
def BanStore.keys : BanStore → List String
  | .dict rules => rules.map Prod.fst
  | .list patterns => patterns

/-- Python len() of the store. -/
def BanStore.size : BanStore → Nat
  | .dict rules => rules.length
  | .list patterns => patterns.length

/-- Python dict assignment store[k] = v: replaces the value of an existing
key in place, otherwise appends; raises TypeError on a bare list. -/
def BanStore.setKey : BanStore → String → String → Except String BanStore
  | .dict rules, k, v =>
    .ok (.dict (if (List.lookup k rules).isSome then
      rules.map (fun p => if p.1 == k then (k, v) else p)
    else
      rules ++ [(k, v)]))
  | .list _, _, _ => .error "TypeError: list indices must be integers"

/-- Resolved identity, as the dict returned by Communicator.whois.
`isOp` models the presence of the key room/op in that dict. -/
structure Whois where
  name : String
  ip : String
  fingerprint : String
  isOp : Bool
deriving DecidableEq

/-- In-memory self.settings of NickServ after __init__ normalisation. -/
structure Settings where
  banned_usernames : BanStore
  banned_ips : BanStore
  registered_usernames : List (String × List String)
deriving DecidableEq

/-- Observable side effect of a handler, in execution order. -/
inductive Effect where
  | send (text : String)
  | whoisQuery (username : String)
  | namesQuery
  | save (s : Settings)
deriving DecidableEq

def Effect.isSend : Effect → Bool
  | .send _ => true
  | _ => false

def Effect.isSave : Effect → Bool
  | .save _ => true
  | _ => false

def Effect.isWhoisQuery : Effect → Bool
  | .whoisQuery _ => true
  | _ => false

/-- File-level operation performed by save_settings: write the serialized
document to settings_path + ".tmp", then atomically rename it over
settings_path. -/
inductive FileOp where
  | write (path : String) (content : String)
  | rename (src : String) (dst : String)
deriving DecidableEq

/-- Embedding of NickServ.save_settings at the file level: write the
temporary file, then rename it over the settings path. -/
def save_settings_ops (settings_path : String) (content : String) : List FileOp :=
  [FileOp.write (settings_path ++ ".tmp") content,
   FileOp.rename (settings_path ++ ".tmp") settings_path]

/-- Embedding of NickServ.get_username_main: username.partition("+")[0],
the characters before the first plus sign. -/
def get_username_main (username : String) : String :=
  String.mk (username.data.takeWhile (fun c => !(c == '+')))

/-- Loop body of get_username_ban_reason: first rule whose pattern matches
the username or its main form wins; a rule whose match raises is skipped
(the try/except around the comparison swallows the exception). -/
def username_ban_loop (m : Matcher) (username main : String) :
    List (String × String) → Option String
  | [] => none
  | (regex, reason) :: rest =>
    match m regex username with
    | .error => username_ban_loop m username main rest
    | .ok true => some reason
    | .ok false =>
      match m regex main with
      | .error => username_ban_loop m username main rest
      | .ok true => some reason
      | .ok false => username_ban_loop m username main rest

/-- Embedding of NickServ.get_username_ban_reason. Iterating .items() of
the ban store raises when the store is a bare list; each rule's match is
guarded by try/except. -/
def get_username_ban_reason (m : Matcher) (store : BanStore) (username : String) :
    Except String (Option String) := do
  let rules ← store.items
  pure (username_ban_loop m username (get_username_main username) rules)

/-- Loop body of get_ip_ban_reason. -/
def ip_ban_loop (m : Matcher) (ip : String) :
    List (String × String) → Option String
  | [] => none
  | (regex, reason) :: rest =>
    match m regex ip with
    | .error => ip_ban_loop m ip rest
    | .ok true => some reason
    | .ok false => ip_ban_loop m ip rest

/-- Embedding of NickServ.get_ip_ban_reason. -/
def get_ip_ban_reason (m : Matcher) (store : BanStore) (ip : String) :
    Except String (Option String) := do
  let rules ← store.items
  pure (ip_ban_loop m ip rules)

/-- Python set.add on a registration entry: append the fingerprint to the
entry of the given username unless already present. -/
def regAdd (regs : List (String × List String)) (u fp : String) :
    List (String × List String) :=
  regs.map (fun p => if p.1 == u then (p.1, if fp ∈ p.2 then p.2 else p.2 ++ [fp]) else p)

/-- Python set.remove on a registration entry (callers check membership
first, so the KeyError path is unreachable). -/
def regRemove (regs : List (String × List String)) (u fp : String) :
    List (String × List String) :=
  regs.map (fun p => if p.1 == u then (p.1, p.2.erase fp) else p)

/-- Python del regs[u]: drop the whole registration entry. -/
def regDel (regs : List (String × List String)) (u : String) :
    List (String × List String) :=
  regs.filter (fun p => p.1 ≠ u)

/-- Python repr of the fingerprint set, as interpolated into the
"is registered to" messages (iteration order of the model list is used in
place of the unspecified set order). -/
def setRepr (fps : List String) : String :=
  "\x7b" ++ String.intercalate ", " (fps.map (fun fp => "\x27" ++ fp ++ "\x27")) ++ "\x7d"

/-- Displayed-name form produced by the chat system for given badge
prefixes: prefixes + (" " if prefixes else "") + username. -/
def expected_display (prefixes username : String) : String :=
  prefixes ++ (if prefixes = "" then "" else " ") ++ username

/-- Embedding of NickServ.get_prefixes_for_user with the whois dict already
resolved: "?" when the fingerprint is not among the fingerprints registered
for the main username (default empty), overridden by "@" for an operator. -/
def get_prefixes_for_user (s : Settings) (username : String) (whois : Whois) : String :=
  let main := get_username_main username
  let fps := (List.lookup main s.registered_usernames).getD []
  let prefixes := if whois.fingerprint ∈ fps then "" else "?"
  if whois.isOp then "@" else prefixes

/-- Embedding of NickServ.update_user_prefixes with the whois dict already
resolved: send a /rename carrying the badge (or the word remove) only when
the displayed name differs from the expected badge-decorated form. -/
def update_user_prefixes (s : Settings) (username : String) (whois : Whois) :
    List Effect :=
  let prefixes := get_prefixes_for_user s username whois
  if whois.name ≠ expected_display prefixes username then
    [Effect.send ("/rename " ++ username ++ " " ++ username ++ " "
      ++ (if prefixes = "" then "remove" else prefixes) ++ "\r\n")]
  else []

/-- update_user_prefixes called without a whois dict: issues a fresh whois
query first (modelled through the oracle whoisOf). -/
def update_user_prefixes_q (s : Settings) (whoisOf : String → Whois) (username : String) :
    List Effect :=
  Effect.whoisQuery username :: update_user_prefixes s username (whoisOf username)

/-- Embedding of NickServ.do_register. Optional arguments carry Python's
None as Option.none; whoisOf resolves the whois query for the caller. -/
def do_register (s : Settings) (whoisOf : String → Whois) (username : String)
    (wantedO : Option String) : Settings × List Effect :=
  let wanted := get_username_main (wantedO.getD username)
  if (List.lookup wanted s.registered_usernames).isSome then
    (s, [Effect.send "This username is already registered\r\n"])
  else
    let whois := whoisOf username
    if whois.fingerprint = "(no public key)" then
      (s, [Effect.whoisQuery username,
           Effect.send "You cannot register this username because you are not authorized by public key.\r\n"])
    else
      let regs1 := if (List.lookup wanted s.registered_usernames).isSome then
        s.registered_usernames else s.registered_usernames ++ [(wanted, [])]
      let s1 : Settings := { s with registered_usernames := regAdd regs1 wanted whois.fingerprint }
      (s1, [Effect.whoisQuery username, Effect.save s1,
            Effect.send (wanted ++ " is now registered to " ++ whois.fingerprint ++ ".\r\n")]
        ++ update_user_prefixes s1 username whois
        ++ (if get_username_main username ≠ wanted then
              [Effect.send ("/rename " ++ username ++ " " ++ wanted ++ "\r\n")]
            else []))

/-- Embedding of NickServ.do_unregister; names resolves the /names query
issued after a successful unregistration. -/
def do_unregister (s : Settings) (whoisOf : String → Whois) (names : List String)
    (username : String) (wantedO : Option String) : Settings × List Effect :=
  let wanted := get_username_main (wantedO.getD username)
  match List.lookup wanted s.registered_usernames with
  | none => (s, [Effect.send "This username is not registered\r\n"])
  | some fps =>
    let whois := whoisOf username
    if whois.fingerprint ∉ fps ∧ ¬ whois.isOp then
      (s, [Effect.whoisQuery username,
           Effect.send "This username is not registered to you\r\n"])
    else
      let s1 : Settings := { s with registered_usernames := regDel s.registered_usernames wanted }
      (s1, [Effect.whoisQuery username, Effect.save s1,
            Effect.send (wanted ++ " is not registered anymore.\r\n"), Effect.namesQuery]
        ++ (names.filter (fun n => get_username_main n == wanted)).flatMap
            (fun n => update_user_prefixes_q s1 whoisOf n))

/-- Embedding of NickServ.do_trust. -/
def do_trust (s : Settings) (whoisOf : String → Whois) (username : String)
    (addedFpO addedUserO : Option String) : Settings × List Effect :=
  let whois := whoisOf username
  let fingerprint := whois.fingerprint
  let added_fp := addedFpO.getD fingerprint
  let added_user := get_username_main (addedUserO.getD username)
  match List.lookup added_user s.registered_usernames with
  | none => (s, [Effect.whoisQuery username,
                 Effect.send "This username is not registered\r\n"])
  | some fps =>
    if ¬ whois.isOp ∧ fingerprint ∉ fps then
      (s, [Effect.whoisQuery username,
           Effect.send (added_user ++ " is not controlled by you\r\n")])
    else if added_fp ∈ fps then
      (s, [Effect.whoisQuery username,
           Effect.send (added_user ++ " is already registered to " ++ added_fp ++ "\r\n")])
    else
      let s1 : Settings := { s with registered_usernames := regAdd s.registered_usernames added_user added_fp }
      (s1, [Effect.whoisQuery username, Effect.save s1,
            Effect.send (added_fp ++ " is registered to " ++ added_user ++ " now.\r\n")])

/-- Embedding of NickServ.do_distrust, including the guard refusing to
remove the last remaining fingerprint. -/
def do_distrust (s : Settings) (whoisOf : String → Whois) (username : String)
    (removedFpO removedUserO : Option String) : Settings × List Effect :=
  let whois := whoisOf username
  let fingerprint := whois.fingerprint
  let removed_fp := removedFpO.getD fingerprint
  let removed_user := get_username_main (removedUserO.getD username)
  match List.lookup removed_user s.registered_usernames with
  | none => (s, [Effect.whoisQuery username,
                 Effect.send "This username is not registered\r\n"])
  | some fps =>
    if ¬ whois.isOp ∧ fingerprint ∉ fps then
      (s, [Effect.whoisQuery username,
           Effect.send (removed_user ++ " is not controlled by you\r\n")])
    else if removed_fp ∉ fps then
      (s, [Effect.whoisQuery username,
           Effect.send (removed_user ++ " is not registered to " ++ removed_fp ++ "\r\n")])
    else if fps.length = 1 then
      (s, [Effect.whoisQuery username,
           Effect.send (removed_user ++ " has only one trusted fingerprint. If you remove it, you\x27ll lose access to the account. If certain, use !unregister instead.\r\n")])
    else
      let s1 : Settings := { s with registered_usernames := regRemove s.registered_usernames removed_user removed_fp }
      (s1, [Effect.whoisQuery username, Effect.save s1,
            Effect.send (removed_fp ++ " is not registered to " ++ removed_user ++ " anymore.\r\n")])

/-- Embedding of NickServ.do_ban. The Python guard `if not banned_username`
covers both a missing argument and an empty string; assignment into a ban
store that has degenerated to a bare list raises, hence Except. -/
def do_ban (s : Settings) (whoisOf : String → Whois) (username : String)
    (bannedO : Option String) (reason : String) : Except String (Settings × List Effect) := do
  let whois := whoisOf username
  if ¬ whois.isOp then
    pure (s, [Effect.whoisQuery username, Effect.send "You are not an OP\r\n"])
  else if bannedO.getD "" = "" then
    pure (s, [Effect.whoisQuery username, Effect.send "Invalid syntax\r\n"])
  else
    let banned := bannedO.getD ""
    let store ← s.banned_usernames.setKey banned reason
    let s1 : Settings := { s with banned_usernames := store }
    pure (s1, [Effect.whoisQuery username,
               Effect.send ("User " ++ banned ++ " is now banned.\r\n"),
               Effect.save s1])

/-- Embedding of NickServ.do_banip. -/
def do_banip (s : Settings) (whoisOf : String → Whois) (username : String)
    (bannedO : Option String) (reason : String) : Except String (Settings × List Effect) := do
  let whois := whoisOf username
  if ¬ whois.isOp then
    pure (s, [Effect.whoisQuery username, Effect.send "You are not an OP\r\n"])
  else if bannedO.getD "" = "" then
    pure (s, [Effect.whoisQuery username, Effect.send "Invalid syntax\r\n"])
  else
    let banned := bannedO.getD ""
    let store ← s.banned_ips.setKey banned reason
    let s1 : Settings := { s with banned_ips := store }
    pure (s1, [Effect.whoisQuery username,
               Effect.send ("IP " ++ banned ++ " is now banned.\r\n"),
               Effect.save s1])

/-- Embedding of NickServ.do_unban: the comprehension iterates the keys of
the store and rebuilds a bare Python list of the patterns not being
unbanned, which is stored back verbatim on change; save_settings runs in
both branches. -/
def do_unban (s : Settings) (whoisOf : String → Whois) (username : String)
    (args : List String) : Settings × List Effect :=
  let whois := whoisOf username
  if ¬ whois.isOp then
    (s, [Effect.whoisQuery username, Effect.send "You are not an OP\r\n"])
  else if args.isEmpty then
    (s, [Effect.whoisQuery username, Effect.send "Invalid syntax\r\n"])
  else
    let old := s.banned_usernames
    let new_list := old.keys.filter (fun u => ¬ args.contains u)
    if new_list.length = old.size then
      (s, [Effect.whoisQuery username, Effect.send "No changes\r\n", Effect.save s])
    else
      let s1 : Settings := { s with banned_usernames := .list new_list }
      (s1, [Effect.whoisQuery username, Effect.send "Unbanned\r\n", Effect.save s1])

/-- Embedding of NickServ.do_unbanip. -/
def do_unbanip (s : Settings) (whoisOf : String → Whois) (username : String)
    (args : List String) : Settings × List Effect :=
  let whois := whoisOf username
  if ¬ whois.isOp then
    (s, [Effect.whoisQuery username, Effect.send "You are not an OP\r\n"])
  else if args.isEmpty then
    (s, [Effect.whoisQuery username, Effect.send "Invalid syntax\r\n"])
  else
    let old := s.banned_ips
    let new_list := old.keys.filter (fun u => ¬ args.contains u)
    if new_list.length = old.size then
      (s, [Effect.whoisQuery username, Effect.send "No changes\r\n", Effect.save s])
    else
      let s1 : Settings := { s with banned_ips := .list new_list }
      (s1, [Effect.whoisQuery username, Effect.send "Unbanned\r\n", Effect.save s1])

/-- Embedding of NickServ.on_user_joined. randName stands for the value of
make_rand_name (os.urandom(5).hex()); whoisOf resolves whois queries. The
trace records the queries and sends in execution order; an exception
escaping the handler (a degenerated ban store) surfaces as Except.error. -/
def on_user_joined (m : Matcher) (s : Settings) (whoisOf : String → Whois)
    (randName : String) (username : String) : Except String (List Effect) := do
  let reasonO ← get_username_ban_reason m s.banned_usernames username
  match reasonO with
  | some reason =>
    pure [Effect.send ("/msg " ++ username ++ " Sorry, your username is banned. Reason: "
      ++ reason ++ "\r\n/rename " ++ username ++ " " ++ randName ++ "\r\n")]
  | none => do
    let whois := whoisOf username
    let ipReasonO ← get_ip_ban_reason m s.banned_ips whois.ip
    match ipReasonO with
    | some reason =>
      pure [Effect.whoisQuery username,
        Effect.send ("/msg " ++ username ++ " Sorry, your IP is banned. Reason: "
          ++ reason ++ "\r\n/kick " ++ username ++ "\r\n")]
    | none =>
      let main := get_username_main username
      match List.lookup main s.registered_usernames with
      | some fps =>
        if whois.fingerprint ∈ fps then
          pure ([Effect.whoisQuery username] ++ update_user_prefixes s username whois)
        else
          pure ([Effect.whoisQuery username,
            Effect.send ("Username " ++ username ++ " is registered to " ++ setRepr fps
              ++ "; please choose another one. If this is your account, please log in with the old key and do !trust "
              ++ whois.fingerprint ++ "\r\n/rename " ++ username ++ " " ++ randName ++ "\r\n")]
            ++ update_user_prefixes s randName whois)
      | none =>
        pure ([Effect.whoisQuery username,
          Effect.send ("/msg " ++ username ++ " Hi there! I\x27m NickServ. I help register nicks on this chat. You can use !register to reserve this nick ("
            ++ username ++ ") for yourself, so that others can\x27t use it to impersonate you (or use !help for more info).\r\n")]
          ++ update_user_prefixes s username whois)

/-- Tokenisation performed by Python str.split() with no separator: split
on whitespace runs, discarding empty tokens; cur accumulates the current
token in reverse. -/
def pyWords : List Char → List Char → List String
  | [], cur => if cur.isEmpty then [] else [String.mk cur.reverse]
  | c :: rest, cur =>
    if c.isWhitespace then
      (if cur.isEmpty then [] else [String.mk cur.reverse]) ++ pyWords rest []
    else pyWords rest (c :: cur)

/-- Python message.split() on the whole string. -/
def pySplit (s : String) : List String :=
  pyWords s.data []

/-- Command-line parsing step of NickServ.on_message: messages not starting
with the "!" command marker are ignored (Option.none inside ok); otherwise
`command, *args = message[1:].split()` unpacks the token list, raising
ValueError when it is empty, and lowercases the command token. -/
def on_message_parse (message : String) : Except String (Option (String × List String)) :=
  match message.data with
  | '!' :: rest =>
    match pyWords rest [] with
    | [] => .error "ValueError: not enough values to unpack"
    | command :: args => .ok (some (command.toLower, args))
  | _ => .ok none

/-
Correlation engine (src/comm.py).
-/

/-- Text put on the wire by run_async_event for a key with no pending
request: the key itself as a command line, then a /names line that forces
the counterpart to terminate the resulting information block. -/
def request_text (key : String) : String :=
  key ++ "\r\n/names\r\n"

/-- Splitter for a sent text into its outbound lines: cuts at each
carriage-return/line-feed terminator pair and discards empty lines; cur
accumulates the current line in reverse. -/
def crlfLines : List Char → List Char → List String
  | [], cur => if cur.isEmpty then [] else [String.mk cur.reverse]
  | '\r' :: '\n' :: rest, cur =>
    (if cur.isEmpty then [] else [String.mk cur.reverse]) ++ crlfLines rest []
  | c :: rest, cur => crlfLines rest (c :: cur)

/-- Outbound lines of a sent text, split at the line terminator. -/
def outboundLines (t : String) : List String :=
  crlfLines t.data []

/-- State of Communicator.async_events abstracted per key: the number of
callers currently awaiting each pending key (the shared Event/holder pair
is represented by the count of its waiters). -/
structure CorrState where
  events : List (String × Nat)
deriving DecidableEq

/-- One call of run_async_event up to its await point: a fresh key
registers a waiter and sends request_text key; a pending key only joins
the existing waiters and sends nothing. Returns the new state and the
lines sent. -/
def run_async_event_step (st : CorrState) (key : String) : CorrState × List String :=
  match List.lookup key st.events with
  | none => (⟨st.events ++ [(key, 1)]⟩, outboundLines (request_text key))
  | some n => (⟨st.events.map (fun p => if p.1 == key then (p.1, n + 1) else p)⟩, [])

/-- Delivery step of Communicator.__on_info_block once a block has been
parsed to (key, value): with no pending entry the value is discarded;
otherwise the entry is removed and every waiter receives the single value
stored in the shared holder. Returns the new state and the list of values
observed by the waiters. -/
def deliver {α : Type} (st : CorrState) (key : String) (v : α) :
    CorrState × List α :=
  match List.lookup key st.events with
  | none => (st, [])
  | some n => (⟨st.events.filter (fun p => p.1 ≠ key)⟩, List.replicate n v)

/-- n successive run_async_event calls for the same key (all issued before
any reply): threads the state and concatenates the sent lines. -/
def registerN (key : String) : Nat → CorrState → CorrState × List String
  | 0, st => (st, [])
  | Nat.succ n, st =>
    let p := run_async_event_step st key
    let q := registerN key n p.1
    (q.1, p.2 ++ q.2)

/-- Characters removed by the lstrip("@! ") call on the name field of a
parsed identity block. -/
def isStrippedChar (c : Char) : Bool :=
  c == '@' || c == '!' || c == ' '

/-- Key derivation of Communicator.__on_info_block for an identity block:
"/whois " plus the resolved name with the leading stripped characters
removed. -/
def whois_block_key (nameField : String) : String :=
  "/whois " ++ String.mk (nameField.data.dropWhile isStrippedChar)

/-
Concrete fixtures used by witnesses and counterexamples.
-/

/-- Matcher oracle for concrete runs: a pattern matches exactly itself and
never raises. -/
def mExact : Matcher := fun pat s => .ok (pat == s)

/-- Matcher oracle whose pattern "(" is malformed (raises), as a lone open
parenthesis does under re.match; every other pattern matches exactly
itself. -/
def mBroken : Matcher := fun pat s => if pat = "(" then .error else .ok (pat == s)

/-- Whois oracle resolving every username as an operator. -/
def opOracle : String → Whois :=
  fun n => { name := n, ip := "1.2.3.4", fingerprint := "fpop", isOp := true }

/-- Whois oracle resolving every username as a plain key-authenticated
user with fingerprint fpuser. -/
def plainOracle : String → Whois :=
  fun n => { name := n, ip := "5.6.7.8", fingerprint := "fpuser", isOp := false }

/-- Settings with empty stores. -/
def sEmpty : Settings :=
  { banned_usernames := .dict [], banned_ips := .dict [], registered_usernames := [] }

/-- Settings with two username ban rules. -/
def sTwoBans : Settings :=
  { banned_usernames := .dict [("a", "reason1"), ("b", "reason2")],
    banned_ips := .dict [], registered_usernames := [] }

/-- Settings banning the exact username bob99 for spam. -/
def sBobBan : Settings :=
  { banned_usernames := .dict [("bob99", "spam")],
    banned_ips := .dict [], registered_usernames := [] }

/-- Settings with alice registered to the two fingerprints fp1 and fp2. -/
def sAlice : Settings :=
  { banned_usernames := .dict [], banned_ips := .dict [],
    registered_usernames := [("alice", ["fp1", "fp2"])] }

/-- Settings with alice registered to the single fingerprint fp1. -/
def sAliceOne : Settings :=
  { banned_usernames := .dict [], banned_ips := .dict [],
    registered_usernames := [("alice", ["fp1"])] }

/-
Derived predicates used in the claim statements.
-/

/-- Invariant of the registration table: no entry has an empty fingerprint
set. -/
def RegOk (regs : List (String × List String)) : Prop :=
  ∀ p ∈ regs, p.2 ≠ []

/-- Well-formedness a Python dict guarantees for the registration table:
its keys are pairwise distinct. -/
def KeysNodup (regs : List (String × List String)) : Prop :=
  (regs.map Prod.fst).Nodup

/-- True when some persistence write occurs at or after the first send of
the trace, i.e. when the trace does NOT persist before acknowledging. -/
def saveAfterSend (tr : List Effect) : Bool :=
  (tr.dropWhile (fun e => !e.isSend)).any Effect.isSave

/-- Modelled from the spec words for badge recomputation: "@" if the
identity is an operator (overriding everything else); else "?" if the
canonical username is unregistered or the fingerprint is not in the
authorized set; else the empty badge. Stated independently of the source
function get_prefixes_for_user so the two can be compared. -/
def computeBadge (s : Settings) (username : String) (whois : Whois) : String :=
  if whois.isOp then "@"
  else
    match List.lookup (get_username_main username) s.registered_usernames with
    | none => "?"
    | some fps => if whois.fingerprint ∈ fps then "" else "?"

/-
Helper lemmas.
-/

theorem update_user_prefixes_no_save (s : Settings) (u : String) (w : Whois) :
    ∀ e ∈ update_user_prefixes s u w, e.isSave = false := by
  intro e he
  simp only [update_user_prefixes] at he
  split at he
  · simp at he
    subst he
    rfl
  · simp at he

theorem update_user_prefixes_any_isSave (s : Settings) (u : String) (w : Whois) :
    (update_user_prefixes s u w).any Effect.isSave = false := by
  rw [List.any_eq_false]
  intro e he
  simp [update_user_prefixes_no_save s u w e he]

theorem update_user_prefixes_q_no_save (s : Settings) (f : String → Whois) (u : String) :
    ∀ e ∈ update_user_prefixes_q s f u, e.isSave = false := by
  intro e he
  unfold update_user_prefixes_q at he
  rcases List.mem_cons.mp he with he1 | he1
  · subst he1; rfl
  · exact update_user_prefixes_no_save s u (f u) e he1

theorem saveAfterSend_cons_of_not_send (e : Effect) (tl : List Effect)
    (h : e.isSend = false) : saveAfterSend (e :: tl) = saveAfterSend tl := by
  unfold saveAfterSend
  rw [List.dropWhile_cons]
  simp [h]

theorem saveAfterSend_cons_of_send (e : Effect) (tl : List Effect)
    (h : e.isSend = true) : saveAfterSend (e :: tl) = (e :: tl).any Effect.isSave := by
  unfold saveAfterSend
  rw [List.dropWhile_cons]
  simp [h]

theorem lookup_eq_none_forall {k : String} {l : List (String × List String)}
    (h : List.lookup k l = none) : ∀ p ∈ l, p.1 ≠ k := by
  induction l with
  | nil => intro p hp; simp at hp
  | cons q rest ih =>
    intro p hp
    by_cases hk : k == q.1
    · simp [List.lookup, hk] at h
    · have h2 : List.lookup k rest = none := by simpa [List.lookup, hk] using h
      rcases List.mem_cons.mp hp with hp1 | hp1
      · subst hp1
        intro hc
        exact hk (beq_iff_eq.mpr hc.symm)
      · exact ih h2 p hp1

theorem lookup_unique {k : String} {v : List String} {l : List (String × List String)}
    (hnd : KeysNodup l) (h : List.lookup k l = some v) :
    ∀ p ∈ l, p.1 = k → p.2 = v := by
  induction l with
  | nil => intro p hp; simp at hp
  | cons q rest ih =>
    intro p hp hpk
    have hnd2 : (q.1 :: rest.map Prod.fst).Nodup := by simpa [KeysNodup] using hnd
    rcases List.nodup_cons.mp hnd2 with ⟨hq, hrest⟩
    rcases List.mem_cons.mp hp with hp1 | hp1
    · subst hp1
      have hb : (k == p.1) = true := beq_iff_eq.mpr hpk.symm
      simpa [List.lookup, hb] using h
    · by_cases hk : k == q.1
      · exfalso
        apply hq
        rw [← eq_of_beq hk]
        subst hpk
        exact List.mem_map.mpr ⟨p, hp1, rfl⟩
      · have h2 : List.lookup k rest = some v := by simpa [List.lookup, hk] using h
        exact ih hrest h2 p hp1 hpk

theorem regOk_regAdd (regs : List (String × List String)) (u fp : String)
    (h : ∀ p ∈ regs, p.2 ≠ [] ∨ p.1 = u) : RegOk (regAdd regs u fp) := by
  intro p hp
  unfold regAdd at hp
  rcases List.mem_map.mp hp with ⟨q, hq, hfq⟩
  subst hfq
  by_cases hqu : q.1 == u
  · by_cases hmem : fp ∈ q.2
    · simpa [hqu, hmem] using List.ne_nil_of_mem hmem
    · simp [hqu, hmem]
  · rcases h q hq with hne | heq
    · simpa [hqu] using hne
    · exact absurd (beq_iff_eq.mpr heq) (by simpa using hqu)

theorem regOk_regDel (regs : List (String × List String)) (u : String)
    (h : RegOk regs) : RegOk (regDel regs u) := by
  intro p hp
  exact h p (List.mem_of_mem_filter hp)

theorem regOk_regRemove (regs : List (String × List String)) (u fp : String)
    (fps : List String) (h : RegOk regs) (hnd : KeysNodup regs)
    (hl : List.lookup u regs = some fps) (hmem : fp ∈ fps) (hlen : fps.length ≠ 1) :
    RegOk (regRemove regs u fp) := by
  intro p hp
  unfold regRemove at hp
  rcases List.mem_map.mp hp with ⟨q, hq, hfq⟩
  subst hfq
  by_cases hqu : q.1 == u
  · have hq2 : q.2 = fps := lookup_unique hnd hl q hq (eq_of_beq hqu)
    have hpos : 2 ≤ fps.length := by
      have h1 : 1 ≤ fps.length := List.length_pos.mpr (List.ne_nil_of_mem hmem)
      omega
    have hle : (fps.erase fp).length = fps.length - 1 := List.length_erase_of_mem hmem
    simp only [hqu, if_true]
    rw [hq2]
    intro hc
    rw [hc] at hle
    simp at hle
    omega
  · simpa [hqu] using h q hq

theorem keysNodup_regAdd (regs : List (String × List String)) (u fp : String)
    (h : KeysNodup regs) : KeysNodup (regAdd regs u fp) := by
  have hkeys : (regAdd regs u fp).map Prod.fst = regs.map Prod.fst := by
    unfold regAdd
    rw [List.map_map]
    apply List.map_congr_left
    intro p _
    simp only [Function.comp_apply]
    split <;> rfl
  unfold KeysNodup
  rw [hkeys]
  exact h

theorem keysNodup_regRemove (regs : List (String × List String)) (u fp : String)
    (h : KeysNodup regs) : KeysNodup (regRemove regs u fp) := by
  have hkeys : (regRemove regs u fp).map Prod.fst = regs.map Prod.fst := by
    unfold regRemove
    rw [List.map_map]
    apply List.map_congr_left
    intro p _
    simp only [Function.comp_apply]
    split <;> rfl
  unfold KeysNodup
  rw [hkeys]
  exact h

theorem keysNodup_regDel (regs : List (String × List String)) (u : String)
    (h : KeysNodup regs) : KeysNodup (regDel regs u) := by
  unfold KeysNodup regDel
  exact h.sublist ((List.filter_sublist regs).map Prod.fst)

theorem save_not_mem_update {s : Settings} {u : String} {w : Whois} {s1 : Settings}
    (h : Effect.save s1 ∈ update_user_prefixes s u w) : False := by
  have := update_user_prefixes_no_save s u w _ h
  simp [Effect.isSave] at this

theorem save_not_mem_update_q {s : Settings} {f : String → Whois} {u : String} {s1 : Settings}
    (h : Effect.save s1 ∈ update_user_prefixes_q s f u) : False := by
  have := update_user_prefixes_q_no_save s f u _ h
  simp [Effect.isSave] at this

theorem do_register_save_mem (s : Settings) (whoisOf : String → Whois) (u : String)
    (wO : Option String) (s1 : Settings)
    (h : Effect.save s1 ∈ (do_register s whoisOf u wO).2) :
    s1 = (do_register s whoisOf u wO).1 := by
  simp only [do_register] at h ⊢
  by_cases h1 : (List.lookup (get_username_main (wO.getD u)) s.registered_usernames).isSome
  · simp [h1] at h
  · by_cases h2 : (whoisOf u).fingerprint = "(no public key)"
    · simp [h1, h2] at h
    · simp [h1, h2] at h ⊢
      rcases h with h | h
      · exact h
      · exact absurd h save_not_mem_update

theorem do_trust_save_mem (s : Settings) (whoisOf : String → Whois) (u : String)
    (a b : Option String) (s1 : Settings)
    (h : Effect.save s1 ∈ (do_trust s whoisOf u a b).2) :
    s1 = (do_trust s whoisOf u a b).1 := by
  simp only [do_trust] at h ⊢
  cases hl : List.lookup (get_username_main (b.getD u)) s.registered_usernames with
  | none => simp [hl] at h
  | some fps =>
    by_cases hA : (whoisOf u).isOp = false ∧ (whoisOf u).fingerprint ∉ fps
    · simp [hl, hA] at h
    · by_cases hB : a.getD (whoisOf u).fingerprint ∈ fps
      · simp [hl, hA, hB] at h
      · simp [hl, hA, hB] at h ⊢
        exact h

theorem do_unregister_save_mem (s : Settings) (whoisOf : String → Whois)
    (names : List String) (u : String) (wO : Option String) (s1 : Settings)
    (h : Effect.save s1 ∈ (do_unregister s whoisOf names u wO).2) :
    s1 = (do_unregister s whoisOf names u wO).1 := by
  simp only [do_unregister] at h ⊢
  cases hl : List.lookup (get_username_main (wO.getD u)) s.registered_usernames with
  | none => simp [hl] at h
  | some fps =>
    by_cases hA : (whoisOf u).fingerprint ∉ fps ∧ (whoisOf u).isOp = false
    · simp [hl, hA] at h
    · simp [hl, hA] at h ⊢
      rcases h with h | h
      · exact h
      · rcases h with ⟨n, hn, hmem⟩
        exact absurd hmem save_not_mem_update_q

theorem do_distrust_save_mem (s : Settings) (whoisOf : String → Whois) (u : String)
    (a b : Option String) (s1 : Settings)
    (h : Effect.save s1 ∈ (do_distrust s whoisOf u a b).2) :
    s1 = (do_distrust s whoisOf u a b).1 := by
  simp only [do_distrust] at h ⊢
  cases hl : List.lookup (get_username_main (b.getD u)) s.registered_usernames with
  | none => simp [hl] at h
  | some fps =>
    by_cases hA : (whoisOf u).isOp = false ∧ (whoisOf u).fingerprint ∉ fps
    · simp [hl, hA] at h
    · by_cases hB : a.getD (whoisOf u).fingerprint ∉ fps
      · simp [hl, hA, hB] at h
      · by_cases hC : fps.length = 1
        · simp [hl, hA, hB, hC] at h
        · simp [hl, hA, hB, hC] at h ⊢
          exact h

theorem do_register_regOk (s : Settings) (whoisOf : String → Whois) (u : String)
    (wO : Option String) (hok : RegOk s.registered_usernames) :
    RegOk (do_register s whoisOf u wO).1.registered_usernames := by
  simp only [do_register]
  by_cases h1 : (List.lookup (get_username_main (wO.getD u)) s.registered_usernames).isSome
  · simp [h1]
    exact hok
  · by_cases h2 : (whoisOf u).fingerprint = "(no public key)"
    · simp [h1, h2]
      exact hok
    · simp [h1, h2]
      apply regOk_regAdd
      intro p hp
      rcases List.mem_append.mp hp with hp1 | hp1
      · exact Or.inl (hok p hp1)
      · simp at hp1
        right
        rw [hp1]

theorem do_unregister_regOk (s : Settings) (whoisOf : String → Whois)
    (names : List String) (u : String) (wO : Option String)
    (hok : RegOk s.registered_usernames) :
    RegOk (do_unregister s whoisOf names u wO).1.registered_usernames := by
  simp only [do_unregister]
  cases hl : List.lookup (get_username_main (wO.getD u)) s.registered_usernames with
  | none =>
    simp [hl]
    exact hok
  | some fps =>
    by_cases hA : (whoisOf u).fingerprint ∉ fps ∧ (whoisOf u).isOp = false
    · simp [hl, hA]
      exact hok
    · simp [hl, hA]
      exact regOk_regDel s.registered_usernames (get_username_main (wO.getD u)) hok

theorem do_trust_regOk (s : Settings) (whoisOf : String → Whois) (u : String)
    (a b : Option String) (hok : RegOk s.registered_usernames) :
    RegOk (do_trust s whoisOf u a b).1.registered_usernames := by
  simp only [do_trust]
  cases hl : List.lookup (get_username_main (b.getD u)) s.registered_usernames with
  | none =>
    simp [hl]
    exact hok
  | some fps =>
    by_cases hA : (whoisOf u).isOp = false ∧ (whoisOf u).fingerprint ∉ fps
    · simp [hl, hA]
      exact hok
    · by_cases hB : a.getD (whoisOf u).fingerprint ∈ fps
      · simp [hl, hA, hB]
        exact hok
      · simp [hl, hA, hB]
        apply regOk_regAdd
        intro p hp
        exact Or.inl (hok p hp)

theorem do_distrust_regOk (s : Settings) (whoisOf : String → Whois) (u : String)
    (a b : Option String) (hok : RegOk s.registered_usernames)
    (hnd : KeysNodup s.registered_usernames) :
    RegOk (do_distrust s whoisOf u a b).1.registered_usernames := by
  simp only [do_distrust]
  cases hl : List.lookup (get_username_main (b.getD u)) s.registered_usernames with
  | none =>
    simp [hl]
    exact hok
  | some fps =>
    by_cases hA : (whoisOf u).isOp = false ∧ (whoisOf u).fingerprint ∉ fps
    · simp [hl, hA]
      exact hok
    · by_cases hB : a.getD (whoisOf u).fingerprint ∉ fps
      · simp [hl, hA, hB]
        exact hok
      · by_cases hC : fps.length = 1
        · simp [hl, hA, hB, hC]
          exact hok
        · simp [hl, hA, hB, hC]
          exact regOk_regRemove s.registered_usernames (get_username_main (b.getD u))
            (a.getD (whoisOf u).fingerprint) fps hok hnd hl (not_not.mp hB) hC

theorem do_distrust_singleton_refuses (s : Settings) (whoisOf : String → Whois)
    (u : String) (a b : Option String) (fps : List String)
    (hl : List.lookup (get_username_main (b.getD u)) s.registered_usernames = some fps)
    (hlen : fps.length = 1) :
    (do_distrust s whoisOf u a b).1 = s ∧
    ∀ e ∈ (do_distrust s whoisOf u a b).2, e.isSave = false := by
  simp only [do_distrust]
  by_cases hA : (whoisOf u).isOp = false ∧ (whoisOf u).fingerprint ∉ fps
  · simp [hl, hA, Effect.isSave]
  · by_cases hB : a.getD (whoisOf u).fingerprint ∉ fps
    · simp [hl, hA, hB, Effect.isSave]
    · simp [hl, hA, hB, hlen, Effect.isSave]


/-
Claim theorems.
-/

/-- C7: badge computation returns "@" for an operator, overriding all
else; otherwise "?" when the canonical username is unregistered or the
fingerprint is not among the registration's authorized fingerprints;
otherwise the empty badge. Stated as the equality of the source function
get_prefixes_for_user with the spec-worded computeBadge. -/
theorem badge_computation_matches_spec (s : Settings) (u : String) (w : Whois) :
    get_prefixes_for_user s u w = computeBadge s u w := by
  unfold get_prefixes_for_user computeBadge
  cases hop : w.isOp
  · cases hl : List.lookup (get_username_main u) s.registered_usernames with
    | none => simp [hl]
    | some fps =>
      by_cases hm : w.fingerprint ∈ fps <;> simp [hl, hm]
  · cases hl : List.lookup (get_username_main u) s.registered_usernames with
    | none => simp [hl]
    | some fps =>
      by_cases hm : w.fingerprint ∈ fps <;> simp [hl, hm]

/-- C8: update_user_prefixes emits an outbound rename-with-badge command
exactly when the displayed name differs from the badge-decorated form, so
a second recomputation performed after the emitted rename has taken effect
(and with nothing else changed) emits nothing; the pair of calls emits one
command when the display was stale and none when it already matched, never
two. -/
theorem badge_update_idempotent (s : Settings) (u : String) (w : Whois) :
    (update_user_prefixes s u w = [] ↔
      w.name = expected_display (get_prefixes_for_user s u w) u) ∧
    update_user_prefixes s u
      { w with name := expected_display (get_prefixes_for_user s u w) u } = [] ∧
    (update_user_prefixes s u w
      ++ update_user_prefixes s u
        { w with name := expected_display (get_prefixes_for_user s u w) u }).length =
      (if w.name = expected_display (get_prefixes_for_user s u w) u then 0 else 1) := by
  have hsame : ∀ nm : String,
      get_prefixes_for_user s u { w with name := nm } = get_prefixes_for_user s u w := by
    intro nm; rfl
  refine ⟨?_, ?_, ?_⟩
  · unfold update_user_prefixes
    by_cases h : w.name = expected_display (get_prefixes_for_user s u w) u <;> simp [h]
  · unfold update_user_prefixes
    rw [hsame]
    simp
  · have h2 : update_user_prefixes s u
        { w with name := expected_display (get_prefixes_for_user s u w) u } = [] := by
      unfold update_user_prefixes
      rw [hsame]
      simp
    rw [h2, List.append_nil]
    unfold update_user_prefixes
    by_cases h : w.name = expected_display (get_prefixes_for_user s u w) u <;> simp [h]

/-- C10: a chat message consisting of the bare command marker (the string
of a single exclamation mark, possibly followed only by whitespace)
reaches the tuple unpacking of an empty token list and raises ValueError,
while an ordinary non-command message is ignored without effect. -/
theorem bare_command_marker_raises :
    on_message_parse "!" = .error "ValueError: not enough values to unpack" ∧
    on_message_parse "! " = .error "ValueError: not enough values to unpack" ∧
    on_message_parse "hello" = .ok none := by
  refine ⟨by decide, by decide, by decide⟩

/-- C5 (counterexample): the unverified badge "?" is not removed by the
name clean-up of the identity-block parser, so a resolved name carrying
that badge does not yield the same query key as the bare name. -/
theorem whois_key_question_badge_differs :
    whois_block_key "? alice" ≠ whois_block_key "alice" := by decide

/-- C5 (amended): the query key of a parsed identity block is "/whois "
followed by the resolved name with leading characters from the set
at-sign, exclamation mark and space stripped; stripping handles the
operator badge "@" (with its separator space) but not the unverified
badge "?", which remains part of the key. -/
theorem whois_key_badge_stripping (name : String) :
    whois_block_key ("@ " ++ name) = whois_block_key name ∧
    whois_block_key ("@" ++ name) = whois_block_key name ∧
    whois_block_key "? alice" = "/whois ? alice" := by
  refine ⟨?_, ?_, by decide⟩
  · unfold whois_block_key
    have hdata : ("@ " ++ name).data = '@' :: ' ' :: name.data := by
      rw [String.data_append]; rfl
    rw [hdata]
    rw [List.dropWhile_cons_of_pos (by decide), List.dropWhile_cons_of_pos (by decide)]
  · unfold whois_block_key
    have hdata : ("@" ++ name).data = '@' :: name.data := by
      rw [String.data_append]; rfl
    rw [hdata]
    rw [List.dropWhile_cons_of_pos (by decide)]

theorem registerN_pending (key : String) (m j : Nat) :
    registerN key m ⟨[(key, j)]⟩ = (⟨[(key, j + m)]⟩, []) := by
  induction m generalizing j with
  | zero => rfl
  | succ m ih =>
    unfold registerN
    simp only [run_async_event_step, List.lookup]
    have hb : (key == key) = true := beq_self_eq_true key
    simp [hb, ih (j + 1)]
    omega

theorem registerN_fresh (key : String) (n : Nat) (hn : 1 ≤ n) :
    registerN key n ⟨[]⟩ = (⟨[(key, n)]⟩, outboundLines (request_text key)) := by
  obtain ⟨m, rfl⟩ : ∃ m, n = m + 1 := ⟨n - 1, by omega⟩
  unfold registerN
  simp only [run_async_event_step, List.lookup]
  simp only [List.nil_append]
  rw [registerN_pending key m 1]
  rw [Nat.add_comm 1 m]
  simp

/-- C2 (evaluation at the failing input): with the ban dict holding the
rules a -> reason1 and b -> reason2, before the unban the remaining
pattern b maps to its reason, but an operator unbanning the single
pattern a leaves the store as the bare list of remaining patterns (the
reason of b is dropped), the acknowledgment Unbanned is still sent, and
the next username ban check on the degenerated store raises
AttributeError instead of returning a reason. -/
theorem unban_degrades_ban_store :
    get_username_ban_reason mExact sTwoBans.banned_usernames "b" = .ok (some "reason2") ∧
    (do_unban sTwoBans opOracle "op" ["a"]).1.banned_usernames = .list ["b"] ∧
    (do_unban sTwoBans opOracle "op" ["a"]).2 =
      [Effect.whoisQuery "op", Effect.send "Unbanned\r\n",
       Effect.save { sTwoBans with banned_usernames := .list ["b"] }] ∧
    get_username_ban_reason mExact
        (do_unban sTwoBans opOracle "op" ["a"]).1.banned_usernames "b" =
      .error "AttributeError: list object has no attribute items" := by
  refine ⟨by decide, by decide, by decide, by decide⟩

/-- C3 (counterexample): a names query with no request pending sends the
request line /names twice (the query line plus the block-flushing /names
line appended to every request), not exactly once. -/
theorem names_request_line_sent_twice :
    (registerN "/names" 1 ⟨[]⟩).2.count "/names" = 2 := by decide

/-- C3 (amended): a query for a key with no pending request sends exactly
the two lines of request_text (the key's own request line and a /names
flush line) — exactly one line for the key when the key is not /names
itself, but two for the names key; a query for a pending key sends
nothing; and N queries for the same key issued before the reply, followed
by one delivery, send the request text only once and hand every one of
the N callers the identical delivered value. -/
theorem query_coalescing :
    (∀ (st : CorrState) (key : String), List.lookup key st.events = none →
      (run_async_event_step st key).2 = outboundLines (request_text key)) ∧
    (outboundLines (request_text "/whois bob") = ["/whois bob", "/names"] ∧
      (outboundLines (request_text "/whois bob")).count "/whois bob" = 1 ∧
      outboundLines (request_text "/names") = ["/names", "/names"] ∧
      (outboundLines (request_text "/names")).count "/names" = 2) ∧
    (∀ (st : CorrState) (key : String) (n : Nat),
      List.lookup key st.events = some n → (run_async_event_step st key).2 = []) ∧
    (∀ (n : Nat) (key : String) (v : String), 1 ≤ n →
      (registerN key n ⟨[]⟩).2 = outboundLines (request_text key) ∧
      (deliver (registerN key n ⟨[]⟩).1 key v).2 = List.replicate n v) := by
  refine ⟨?_, ⟨by decide, by decide, by decide, by decide⟩, ?_, ?_⟩
  · intro st key h
    simp [run_async_event_step, h]
  · intro st key n h
    simp [run_async_event_step, h]
  · intro n key v hn
    rw [registerN_fresh key n hn]
    refine ⟨rfl, ?_⟩
    simp [deliver, List.lookup, beq_self_eq_true]

/-- C6: a join event for a username matching a name-ban rule produces
exactly one send containing the rejection message citing the rule's
reason and the force-rename to the fresh random name, and the handler
stops there: no whois identity query appears in the trace. -/
theorem join_banned_username (m : Matcher) (s : Settings) (whoisOf : String → Whois)
    (randName : String) (u r : String)
    (h : get_username_ban_reason m s.banned_usernames u = .ok (some r)) :
    on_user_joined m s whoisOf randName u =
      .ok [Effect.send ("/msg " ++ u ++ " Sorry, your username is banned. Reason: " ++ r
        ++ "\r\n/rename " ++ u ++ " " ++ randName ++ "\r\n")] ∧
    ∀ tr, on_user_joined m s whoisOf randName u = .ok tr →
      ∀ e ∈ tr, e.isWhoisQuery = false := by
  have h1 : on_user_joined m s whoisOf randName u =
      .ok [Effect.send ("/msg " ++ u ++ " Sorry, your username is banned. Reason: " ++ r
        ++ "\r\n/rename " ++ u ++ " " ++ randName ++ "\r\n")] := by
    unfold on_user_joined
    rw [h]
    rfl
  refine ⟨h1, ?_⟩
  intro tr htr e he
  rw [h1] at htr
  have : tr = [Effect.send ("/msg " ++ u ++ " Sorry, your username is banned. Reason: " ++ r
      ++ "\r\n/rename " ++ u ++ " " ++ randName ++ "\r\n")] := by
    injection htr with htr2
    exact htr2.symm
  subst this
  rcases List.mem_cons.mp he with he1 | he1
  · subst he1; rfl
  · simp at he1

/-- C9: a ban rule whose pattern raises during matching is skipped (the
ban check of the remaining rules is unchanged), for the username check
when the match raises on the username (or on its main form after a
non-match), and for the IP check when the match raises on the IP; and on
a well-formed rule dict both ban checks always return a value instead of
propagating an exception. -/
theorem faulty_ban_rule_skipped :
    (∀ (m : Matcher) (username main p r : String) (l1 l2 : List (String × String)),
      (m p username = .error ∨ (m p username = .ok false ∧ m p main = .error)) →
      username_ban_loop m username main (l1 ++ (p, r) :: l2) =
        username_ban_loop m username main (l1 ++ l2)) ∧
    (∀ (m : Matcher) (ip p r : String) (l1 l2 : List (String × String)),
      m p ip = .error →
      ip_ban_loop m ip (l1 ++ (p, r) :: l2) = ip_ban_loop m ip (l1 ++ l2)) ∧
    (∀ (m : Matcher) (rules : List (String × String)) (username : String),
      get_username_ban_reason m (.dict rules) username =
        .ok (username_ban_loop m username (get_username_main username) rules)) ∧
    (∀ (m : Matcher) (rules : List (String × String)) (ip : String),
      get_ip_ban_reason m (.dict rules) ip = .ok (ip_ban_loop m ip rules)) := by
  refine ⟨?_, ?_, fun _ _ _ => rfl, fun _ _ _ => rfl⟩
  · intro m username main p r l1 l2 h
    induction l1 with
    | nil =>
      simp only [List.nil_append, username_ban_loop]
      rcases h with h | ⟨h1, h2⟩
      · rw [h]
      · rw [h1, h2]
    | cons q l1 ih =>
      obtain ⟨qp, qr⟩ := q
      simp only [List.cons_append, username_ban_loop]
      cases hm : m qp username with
      | error => exact ih
      | ok b =>
        cases b
        · cases hm2 : m qp main with
          | error => exact ih
          | ok b2 => cases b2 <;> simp [ih]
        · rfl
  · intro m ip p r l1 l2 h
    induction l1 with
    | nil =>
      simp only [List.nil_append, ip_ban_loop]
      rw [h]
    | cons q l1 ih =>
      obtain ⟨qp, qr⟩ := q
      simp only [List.cons_append, ip_ban_loop]
      cases hm : m qp ip with
      | error => exact ih
      | ok b => cases b <;> simp [ih]

/-- C4: no operation ever saves a registration with an empty fingerprint
set: register, unregister, trust and distrust all map a registration
table with no empty entries to a registration table with no empty
entries, and every PolicyDocument they pass to save_settings satisfies
the same invariant; moreover distrust on a registration holding exactly
one fingerprint refuses: it leaves the settings unchanged and performs no
persistence write (the only path to zero fingerprints is unregister
deleting the whole entry, and regDel removes the entry wholesale). -/
theorem registrations_never_saved_empty :
    (∀ (s : Settings) (whoisOf : String → Whois) (u : String) (wO : Option String),
      RegOk s.registered_usernames →
      RegOk (do_register s whoisOf u wO).1.registered_usernames ∧
      ∀ s1, Effect.save s1 ∈ (do_register s whoisOf u wO).2 →
        RegOk s1.registered_usernames) ∧
    (∀ (s : Settings) (whoisOf : String → Whois) (names : List String)
      (u : String) (wO : Option String),
      RegOk s.registered_usernames →
      RegOk (do_unregister s whoisOf names u wO).1.registered_usernames ∧
      ∀ s1, Effect.save s1 ∈ (do_unregister s whoisOf names u wO).2 →
        RegOk s1.registered_usernames) ∧
    (∀ (s : Settings) (whoisOf : String → Whois) (u : String) (a b : Option String),
      RegOk s.registered_usernames →
      RegOk (do_trust s whoisOf u a b).1.registered_usernames ∧
      ∀ s1, Effect.save s1 ∈ (do_trust s whoisOf u a b).2 →
        RegOk s1.registered_usernames) ∧
    (∀ (s : Settings) (whoisOf : String → Whois) (u : String) (a b : Option String),
      RegOk s.registered_usernames → KeysNodup s.registered_usernames →
      RegOk (do_distrust s whoisOf u a b).1.registered_usernames ∧
      ∀ s1, Effect.save s1 ∈ (do_distrust s whoisOf u a b).2 →
        RegOk s1.registered_usernames) ∧
    (∀ (s : Settings) (whoisOf : String → Whois) (u : String) (a b : Option String)
      (fps : List String),
      List.lookup (get_username_main (b.getD u)) s.registered_usernames = some fps →
      fps.length = 1 →
      (do_distrust s whoisOf u a b).1 = s ∧
      ∀ e ∈ (do_distrust s whoisOf u a b).2, e.isSave = false) := by
  refine ⟨?_, ?_, ?_, ?_, do_distrust_singleton_refuses⟩
  · intro s whoisOf u wO hok
    refine ⟨do_register_regOk s whoisOf u wO hok, ?_⟩
    intro s1 hs1
    rw [do_register_save_mem s whoisOf u wO s1 hs1]
    exact do_register_regOk s whoisOf u wO hok
  · intro s whoisOf names u wO hok
    refine ⟨do_unregister_regOk s whoisOf names u wO hok, ?_⟩
    intro s1 hs1
    rw [do_unregister_save_mem s whoisOf names u wO s1 hs1]
    exact do_unregister_regOk s whoisOf names u wO hok
  · intro s whoisOf u a b hok
    refine ⟨do_trust_regOk s whoisOf u a b hok, ?_⟩
    intro s1 hs1
    rw [do_trust_save_mem s whoisOf u a b s1 hs1]
    exact do_trust_regOk s whoisOf u a b hok
  · intro s whoisOf u a b hok hnd
    refine ⟨do_distrust_regOk s whoisOf u a b hok hnd, ?_⟩
    intro s1 hs1
    rw [do_distrust_save_mem s whoisOf u a b s1 hs1]
    exact do_distrust_regOk s whoisOf u a b hok hnd

theorem flatMap_update_q_any_isSave (s : Settings) (f : String → Whois) (ns : List String) :
    (ns.flatMap (fun n => update_user_prefixes_q s f n)).any Effect.isSave = false := by
  rw [List.any_eq_false]
  intro e he
  rcases List.mem_flatMap.mp he with ⟨n, _, hmem⟩
  simp [update_user_prefixes_q_no_save s f n e hmem]

theorem register_persists_before_ack (s : Settings) (whoisOf : String → Whois)
    (u : String) (wO : Option String) :
    saveAfterSend (do_register s whoisOf u wO).2 = false := by
  simp only [do_register]
  by_cases h1 : (List.lookup (get_username_main (wO.getD u)) s.registered_usernames).isSome
  · simp [h1, saveAfterSend, Effect.isSend, Effect.isSave]
  · by_cases h2 : (whoisOf u).fingerprint = "(no public key)"
    · simp [h1, h2, saveAfterSend, Effect.isSend, Effect.isSave]
    · simp [h1, h2, saveAfterSend, Effect.isSend, Effect.isSave, List.any_append,
        update_user_prefixes_any_isSave]

theorem unregister_persists_before_ack (s : Settings) (whoisOf : String → Whois)
    (names : List String) (u : String) (wO : Option String) :
    saveAfterSend (do_unregister s whoisOf names u wO).2 = false := by
  simp only [do_unregister]
  cases hl : List.lookup (get_username_main (wO.getD u)) s.registered_usernames with
  | none => simp [hl, saveAfterSend, Effect.isSend, Effect.isSave]
  | some fps =>
    by_cases hA : (whoisOf u).fingerprint ∉ fps ∧ (whoisOf u).isOp = false
    · simp [hl, hA, saveAfterSend, Effect.isSend, Effect.isSave]
    · simp [hl, hA, saveAfterSend, Effect.isSend, Effect.isSave, List.any_append]
      intro x hx hmx x1 hx1
      have := update_user_prefixes_q_no_save _ whoisOf x x1 hx1
      simpa [Effect.isSave] using this

theorem trust_persists_before_ack (s : Settings) (whoisOf : String → Whois)
    (u : String) (a b : Option String) :
    saveAfterSend (do_trust s whoisOf u a b).2 = false := by
  simp only [do_trust]
  cases hl : List.lookup (get_username_main (b.getD u)) s.registered_usernames with
  | none => simp [hl, saveAfterSend, Effect.isSend, Effect.isSave]
  | some fps =>
    by_cases hA : (whoisOf u).isOp = false ∧ (whoisOf u).fingerprint ∉ fps
    · simp [hl, hA, saveAfterSend, Effect.isSend, Effect.isSave]
    · by_cases hB : a.getD (whoisOf u).fingerprint ∈ fps
      · simp [hl, hA, hB, saveAfterSend, Effect.isSend, Effect.isSave]
      · simp [hl, hA, hB, saveAfterSend, Effect.isSend, Effect.isSave]

theorem distrust_persists_before_ack (s : Settings) (whoisOf : String → Whois)
    (u : String) (a b : Option String) :
    saveAfterSend (do_distrust s whoisOf u a b).2 = false := by
  simp only [do_distrust]
  cases hl : List.lookup (get_username_main (b.getD u)) s.registered_usernames with
  | none => simp [hl, saveAfterSend, Effect.isSend, Effect.isSave]
  | some fps =>
    by_cases hA : (whoisOf u).isOp = false ∧ (whoisOf u).fingerprint ∉ fps
    · simp [hl, hA, saveAfterSend, Effect.isSend, Effect.isSave]
    · by_cases hB : a.getD (whoisOf u).fingerprint ∉ fps
      · simp [hl, hA, hB, saveAfterSend, Effect.isSend, Effect.isSave]
      · by_cases hC : fps.length = 1
        · simp [hl, hA, hB, hC, saveAfterSend, Effect.isSend, Effect.isSave]
        · simp [hl, hA, hB, hC, saveAfterSend, Effect.isSend, Effect.isSave]

theorem ban_acks_before_persist (s : Settings) (whoisOf : String → Whois)
    (u b r : String) (res : Settings × List Effect)
    (hop : (whoisOf u).isOp = true) (hb : ¬ b = "")
    (h : do_ban s whoisOf u (some b) r = .ok res) :
    saveAfterSend res.2 = true := by
  simp only [do_ban] at h
  cases hst : s.banned_usernames with
  | dict rules =>
    rw [hst] at h
    simp [hop, hb, BanStore.setKey] at h
    subst h
    simp [saveAfterSend, Effect.isSend, Effect.isSave]
  | list ps =>
    rw [hst] at h
    simp [hop, hb, BanStore.setKey] at h

theorem banip_acks_before_persist (s : Settings) (whoisOf : String → Whois)
    (u b r : String) (res : Settings × List Effect)
    (hop : (whoisOf u).isOp = true) (hb : ¬ b = "")
    (h : do_banip s whoisOf u (some b) r = .ok res) :
    saveAfterSend res.2 = true := by
  simp only [do_banip] at h
  cases hst : s.banned_ips with
  | dict rules =>
    rw [hst] at h
    simp [hop, hb, BanStore.setKey] at h
    subst h
    simp [saveAfterSend, Effect.isSend, Effect.isSave]
  | list ps =>
    rw [hst] at h
    simp [hop, hb, BanStore.setKey] at h

theorem unban_acks_before_persist (s : Settings) (whoisOf : String → Whois)
    (u : String) (args : List String)
    (hop : (whoisOf u).isOp = true) (hargs : args ≠ []) :
    saveAfterSend (do_unban s whoisOf u args).2 = true := by
  simp only [do_unban]
  simp [hop, hargs]
  split <;> simp [saveAfterSend, Effect.isSend, Effect.isSave]

theorem unbanip_acks_before_persist (s : Settings) (whoisOf : String → Whois)
    (u : String) (args : List String)
    (hop : (whoisOf u).isOp = true) (hargs : args ≠ []) :
    saveAfterSend (do_unbanip s whoisOf u args).2 = true := by
  simp only [do_unbanip]
  simp [hop, hargs]
  split <;> simp [saveAfterSend, Effect.isSend, Effect.isSave]

/-- C1 (amended): register, unregister, trust and distrust persist the
PolicyDocument before sending the success acknowledgment: in every run of
those four, no save effect occurs at or after the first send of the
trace. In contrast ban, banip, unban and unbanip send the acknowledgment
first and only then persist: every successful run of those four (operator
caller, well-formed argument) has a save effect after the first send —
the persist is still synchronous within the handler, but durability is
not established before the acknowledgment. -/
theorem persist_ack_ordering :
    (∀ (s : Settings) (whoisOf : String → Whois) (u : String) (wO : Option String),
      saveAfterSend (do_register s whoisOf u wO).2 = false) ∧
    (∀ (s : Settings) (whoisOf : String → Whois) (names : List String) (u : String)
      (wO : Option String),
      saveAfterSend (do_unregister s whoisOf names u wO).2 = false) ∧
    (∀ (s : Settings) (whoisOf : String → Whois) (u : String) (a b : Option String),
      saveAfterSend (do_trust s whoisOf u a b).2 = false) ∧
    (∀ (s : Settings) (whoisOf : String → Whois) (u : String) (a b : Option String),
      saveAfterSend (do_distrust s whoisOf u a b).2 = false) ∧
    (∀ (s : Settings) (whoisOf : String → Whois) (u b r : String)
      (res : Settings × List Effect), (whoisOf u).isOp = true → ¬ b = "" →
      do_ban s whoisOf u (some b) r = .ok res → saveAfterSend res.2 = true) ∧
    (∀ (s : Settings) (whoisOf : String → Whois) (u b r : String)
      (res : Settings × List Effect), (whoisOf u).isOp = true → ¬ b = "" →
      do_banip s whoisOf u (some b) r = .ok res → saveAfterSend res.2 = true) ∧
    (∀ (s : Settings) (whoisOf : String → Whois) (u : String) (args : List String),
      (whoisOf u).isOp = true → args ≠ [] →
      saveAfterSend (do_unban s whoisOf u args).2 = true) ∧
    (∀ (s : Settings) (whoisOf : String → Whois) (u : String) (args : List String),
      (whoisOf u).isOp = true → args ≠ [] →
      saveAfterSend (do_unbanip s whoisOf u args).2 = true) :=
  ⟨register_persists_before_ack, unregister_persists_before_ack,
   trust_persists_before_ack, distrust_persists_before_ack,
   ban_acks_before_persist, banip_acks_before_persist,
   unban_acks_before_persist, unbanip_acks_before_persist⟩

/-- Witness for persist_ack_ordering: an operator unbanning the pattern a
from the two-rule settings hits the unban conjunct with both hypotheses
discharged at concrete values; the acknowledgment indeed precedes the
save in that run. -/
theorem persist_ack_ordering_witness :
    (opOracle "op").isOp = true ∧ (["a"] : List String) ≠ [] ∧
    saveAfterSend (do_unban sTwoBans opOracle "op" ["a"]).2 = true :=
  ⟨by decide, by decide,
   persist_ack_ordering.2.2.2.2.2.2.1 sTwoBans opOracle "op" ["a"] (by decide) (by decide)⟩

/-- C1 (counterexample): a successful do_ban run acknowledges before it
persists: with empty settings, an operator banning bob yields the trace
whois query, acknowledgment send, save — the save effect comes after the
first send, so the persist does not happen before the acknowledgment. -/
theorem ban_ack_precedes_save :
    do_ban sEmpty opOracle "op" (some "bob") "(no reason)" =
      .ok ({ sEmpty with banned_usernames := .dict [("bob", "(no reason)")] },
        [Effect.whoisQuery "op", Effect.send "User bob is now banned.\r\n",
         Effect.save { sEmpty with banned_usernames := .dict [("bob", "(no reason)")] }]) ∧
    saveAfterSend [Effect.whoisQuery "op", Effect.send "User bob is now banned.\r\n",
      Effect.save { sEmpty with banned_usernames := .dict [("bob", "(no reason)")] }] = true :=
  ⟨by decide, by decide⟩

/-- Witness for query_coalescing: two concurrent whois queries for bob
from the idle state send the request text once and both callers receive
the delivered value. -/
theorem query_coalescing_witness :
    (1 : Nat) ≤ 2 ∧
    (registerN "/whois bob" 2 ⟨[]⟩).2 = outboundLines (request_text "/whois bob") ∧
    (deliver (registerN "/whois bob" 2 ⟨[]⟩).1 "/whois bob" "v").2 =
      List.replicate 2 "v" :=
  ⟨by decide,
   (query_coalescing.2.2.2 2 "/whois bob" "v" (by decide)).1,
   (query_coalescing.2.2.2 2 "/whois bob" "v" (by decide)).2⟩

/-- Witness for registrations_never_saved_empty: a register run on the
one-entry table keeps the invariant, and a distrust aimed at the
registration alice -> fp1 holding exactly one fingerprint leaves the
settings unchanged. -/
theorem registrations_never_saved_empty_witness :
    RegOk sAliceOne.registered_usernames ∧
    RegOk (do_register sAliceOne plainOracle "carol" none).1.registered_usernames ∧
    List.lookup (get_username_main ((none : Option String).getD "alice"))
        sAliceOne.registered_usernames = some ["fp1"] ∧
    ("fp1" :: ([] : List String)).length = 1 ∧
    (do_distrust sAliceOne plainOracle "alice" none none).1 = sAliceOne :=
  ⟨by unfold RegOk; decide,
   (registrations_never_saved_empty.1 sAliceOne plainOracle "carol" none
     (by unfold RegOk; decide)).1,
   by decide, by decide,
   (registrations_never_saved_empty.2.2.2.2 sAliceOne plainOracle "alice" none none
     ["fp1"] (by decide) (by decide)).1⟩

/-- Witness for join_banned_username: the exact-match rule bob99 -> spam
fires on the join of bob99, and the handler emits exactly the rejection
send. -/
theorem join_banned_username_witness :
    get_username_ban_reason mExact sBobBan.banned_usernames "bob99" = .ok (some "spam") ∧
    on_user_joined mExact sBobBan plainOracle "aabbcc" "bob99" =
      .ok [Effect.send ("/msg " ++ "bob99" ++ " Sorry, your username is banned. Reason: "
        ++ "spam" ++ "\r\n/rename " ++ "bob99" ++ " " ++ "aabbcc" ++ "\r\n")] :=
  ⟨by decide,
   (join_banned_username mExact sBobBan plainOracle "aabbcc" "bob99" "spam" (by decide)).1⟩

/-- Witness for faulty_ban_rule_skipped: the malformed pattern ( raises
under mBroken, and dropping that rule from the middle of the rule list
leaves the ban check result unchanged. -/
theorem faulty_ban_rule_skipped_witness :
    mBroken "(" "alice" = .error ∧
    username_ban_loop mBroken "alice" (get_username_main "alice")
        ([("x", "rx")] ++ ("(", "boom") :: [("alice", "gotcha")]) =
      username_ban_loop mBroken "alice" (get_username_main "alice")
        ([("x", "rx")] ++ [("alice", "gotcha")]) :=
  ⟨by decide,
   faulty_ban_rule_skipped.1 mBroken "alice" (get_username_main "alice") "(" "boom"
     [("x", "rx")] [("alice", "gotcha")] (Or.inl (by decide))⟩

end NickServ
